import Mathlib

/-!
Shallow embedding of `src/data-generation/convert_data.py` (KanjiVG data
conversion) and proofs about its core functions: the recursive group/stroke
tree conversion (`convert_stroke_group`), the pre-order stroke flattener
(`flatten_all_strokes`), the Unicode block classifier (`get_unicode_range`),
and the index-building main loop.
-/

set_option maxHeartbeats 1000000

namespace KanjiVG

/-- A terminal stroke node of the source tree (spec §3 StrokeNode):
`stype` is the stroke shape classification, `svg` the geometric path
(absent when the source lacks one), `numberPos` the coordinate of the
stroke-number label (possibly absent). -/
structure StrokeNode where
  stype : String
  svg : Option String
  numberPos : Option (Int × Int)
deriving DecidableEq, Repr

/-- The optional metadata attributes carried by a group node
(spec §3 GroupNode; the attributes read by `convert_stroke_group`). -/
structure GroupAttrs where
  ID : Option String
  element : Option String
  original : Option String
  part : Option Nat
  number : Option Nat
  variant : Option String
  partialAttr : Bool
  tradForm : Bool
  radicalForm : Bool
  position : Option String
  radical : Option String
  phon : Option String
deriving DecidableEq, Repr

mutual
/-- A group node of the source tree: metadata plus an ordered list of
children (draw/definition order). -/
inductive GroupNode : Type where
  | mk (attrs : GroupAttrs) (childs : List Child) : GroupNode

/-- A child of a group: the Python code dispatches on
`hasattr(child, 'childs')`; we model this duck-typing as an explicit
tagged union per spec §9. -/
inductive Child : Type where
  | group (g : GroupNode) : Child
  | stroke (s : StrokeNode) : Child
end

/-- The attributes of a group node. -/
def GroupNode.attrs : GroupNode → GroupAttrs
  | .mk a _ => a

/-- The ordered children of a group node. -/
def GroupNode.childs : GroupNode → List Child
  | .mk _ cs => cs

/-- The stroke record emitted into JSON for one stroke: the Python dict
`{"type": child.stype, "path": child.svg or "", "numberPos": child.numberPos}`
sets all three keys unconditionally, so all three fields are plain. -/
structure StrokeRecord where
  type : String
  path : String
  numberPos : Option (Int × Int)
deriving DecidableEq, Repr

/-- Python truthiness `x or ""` for an optional string `x`. -/
def orEmpty : Option String → String
  | none => ""
  | some s => if s = "" then "" else s

/-- Python truthiness `if x:` for an optional string: true iff present and
non-empty. -/
def truthyS : Option String → Bool
  | none => false
  | some s => !(s = "")

/-- The stroke dict built (identically) at convert_data.py lines 83-87 and
lines 100-104. -/
def strokeToRecord (s : StrokeNode) : StrokeRecord :=
  { type := s.stype, path := orEmpty s.svg, numberPos := s.numberPos }

/-- The scalar-field part of the group dict `js_group` built at
convert_data.py lines 48-76: `id` is always set (to `group.ID or ""`);
`part` and `number` are set when `is not None`; every other optional field
is set only when truthy. A field valued `none` here means the dict key is
absent. -/
structure GRFields where
  id : String
  element : Option String
  original : Option String
  part : Option Nat
  number : Option Nat
  variant : Option String
  partialAttr : Bool
  tradForm : Bool
  radicalForm : Bool
  position : Option String
  radical : Option String
  phon : Option String
deriving DecidableEq, Repr

/-- Build the scalar fields of `js_group` from the group's attributes
(convert_data.py lines 48-76). -/
def convertAttrs (a : GroupAttrs) : GRFields :=
  { id := orEmpty a.ID
  , element := if truthyS a.element then a.element else none
  , original := if truthyS a.original then a.original else none
  , part := if a.part.isSome then a.part else none
  , number := if a.number.isSome then a.number else none
  , variant := if truthyS a.variant then a.variant else none
  , partialAttr := a.partialAttr
  , tradForm := a.tradForm
  , radicalForm := a.radicalForm
  , position := if truthyS a.position then a.position else none
  , radical := if truthyS a.radical then a.radical else none
  , phon := if truthyS a.phon then a.phon else none }

/-- The JSON keys present on the group dict, in the order the Python code
inserts them (convert_data.py lines 48-76): `id`, `groups`, `strokes`
always, then each optional key only when its guard holds. -/
def groupRecordKeys (a : GroupAttrs) : List String :=
  ["id", "groups", "strokes"]
  ++ (if truthyS a.element then ["element"] else [])
  ++ (if truthyS a.original then ["original"] else [])
  ++ (if a.part.isSome then ["part"] else [])
  ++ (if a.number.isSome then ["number"] else [])
  ++ (if truthyS a.variant then ["variant"] else [])
  ++ (if a.partialAttr then ["partial"] else [])
  ++ (if a.tradForm then ["tradForm"] else [])
  ++ (if a.radicalForm then ["radicalForm"] else [])
  ++ (if truthyS a.position then ["position"] else [])
  ++ (if truthyS a.radical then ["radical"] else [])
  ++ (if truthyS a.phon then ["phon"] else [])

/-- The group record emitted into JSON for one group: scalar fields plus
the two ordered child lists `groups` and `strokes`. -/
inductive GroupRecord : Type where
  | mk (fields : GRFields) (groups : List GroupRecord) (strokes : List StrokeRecord) : GroupRecord

/-- The scalar fields of a group record. -/
def GroupRecord.fields : GroupRecord → GRFields
  | .mk f _ _ => f

/-- The nested sub-group records of a group record. -/
def GroupRecord.groups : GroupRecord → List GroupRecord
  | .mk _ gs _ => gs

/-- The direct stroke records of a group record. -/
def GroupRecord.strokes : GroupRecord → List StrokeRecord
  | .mk _ _ ss => ss

mutual
/-- convert_data.py lines 46-89: recursively convert a stroke group.
The single pass over `group.childs` appending into `js_group["groups"]`
and `js_group["strokes"]` is modelled by `convertChilds`. -/
def convert_stroke_group : GroupNode → GroupRecord
  | .mk a cs => .mk (convertAttrs a) (convertChilds cs).1 (convertChilds cs).2

/-- The loop at convert_data.py lines 79-87: for each child in order,
a group child is recursively converted and appended to `groups`, a stroke
child is mapped to its record and appended to `strokes`. -/
def convertChilds : List Child → List GroupRecord × List StrokeRecord
  | [] => ([], [])
  | .group g :: rest => ((convert_stroke_group g) :: (convertChilds rest).1, (convertChilds rest).2)
  | .stroke s :: rest => ((convertChilds rest).1, strokeToRecord s :: (convertChilds rest).2)
end

mutual
/-- convert_data.py lines 91-106: flatten all strokes of a group into one
list in draw order. -/
def flatten_all_strokes : GroupNode → List StrokeRecord
  | .mk _ cs => flattenChilds cs

/-- The loop at convert_data.py lines 96-104: group children are flattened
recursively and spliced in place; stroke children are appended as records. -/
def flattenChilds : List Child → List StrokeRecord
  | [] => []
  | .group g :: rest => flatten_all_strokes g ++ flattenChilds rest
  | .stroke s :: rest => strokeToRecord s :: flattenChilds rest
end

mutual
/-- Count of StrokeNode leaves reachable in a group tree. -/
def strokeLeafCount : GroupNode → Nat
  | .mk _ cs => strokeLeafCountChilds cs

/-- Count of StrokeNode leaves in a child list. -/
def strokeLeafCountChilds : List Child → Nat
  | [] => 0
  | .group g :: rest => strokeLeafCount g + strokeLeafCountChilds rest
  | .stroke _ :: rest => 1 + strokeLeafCountChilds rest
end

mutual
/-- The StrokeNode leaves of a group tree in pre-order, left-to-right,
depth-first order (a reference traversal on the source tree, stated
independently of record construction). -/
def preorderLeaves : GroupNode → List StrokeNode
  | .mk _ cs => preorderLeavesChilds cs

/-- Pre-order leaves of a child list. -/
def preorderLeavesChilds : List Child → List StrokeNode
  | [] => []
  | .group g :: rest => preorderLeaves g ++ preorderLeavesChilds rest
  | .stroke s :: rest => s :: preorderLeavesChilds rest
end

/-- The direct stroke children of a child list (the subsequence of
children that are StrokeNode), in order. -/
def directStrokes (cs : List Child) : List StrokeNode :=
  cs.filterMap fun c => match c with
    | .stroke s => some s
    | .group _ => none

/-- The direct group children of a child list (the subsequence of
children that are GroupNode), in order. -/
def directGroups (cs : List Child) : List GroupNode :=
  cs.filterMap fun c => match c with
    | .group g => some g
    | .stroke _ => none

/-- Value of one hexadecimal digit, as accepted by Python `int(_, 16)`. -/
def hexDigitVal : Char → Option Nat := fun c =>
  if '0' ≤ c ∧ c ≤ '9' then some (c.toNat - '0'.toNat)
  else if 'a' ≤ c ∧ c ≤ 'f' then some (c.toNat - 'a'.toNat + 10)
  else if 'A' ≤ c ∧ c ≤ 'F' then some (c.toNat - 'A'.toNat + 10)
  else none

/-- Accumulate hex digits left to right. -/
def decodeHexChars : List Char → Nat → Option Nat
  | [], acc => some acc
  | c :: rest, acc =>
    match hexDigitVal c with
    | none => none
    | some d => decodeHexChars rest (acc * 16 + d)

/-- Python `int(code, 16)` on a plain hexadecimal digit string: `none`
models the ValueError raised on an empty or non-hexadecimal string. -/
def decodeHex (s : String) : Option Nat :=
  if s = "" then none else decodeHexChars s.data 0

/-- The if/elif chain of `get_unicode_range` (convert_data.py lines
112-127) applied to the decoded codepoint. -/
def classifyCodePoint (cp : Nat) : String :=
  if 0x4E00 ≤ cp ∧ cp ≤ 0x9FFF then "basic"
  else if 0x3400 ≤ cp ∧ cp ≤ 0x4DBF then "extended-a"
  else if 0x20000 ≤ cp ∧ cp ≤ 0x2A6DF then "extended-b"
  else if 0x2A700 ≤ cp ∧ cp ≤ 0x2B73F then "extended-c"
  else if 0x2B740 ≤ cp ∧ cp ≤ 0x2B81F then "extended-d"
  else if 0x2B820 ≤ cp ∧ cp ≤ 0x2CEAF then "extended-e"
  else if 0xF900 ≤ cp ∧ cp ≤ 0xFAFF then "compatibility"
  else "other"

/-- convert_data.py lines 108-127: decode the code as a hex integer, then
classify; `none` models the exception on an undecodable string. -/
def get_unicode_range (code : String) : Option String :=
  (decodeHex code).map classifyCodePoint

/-- The in-memory kanji object handed to the converter by the external
Source Tree Reader: its hex `code`, optional `variant` tag, and root
stroke group. -/
structure Kanji where
  code : String
  variant : Option String
  strokes : GroupNode

/-- Modelled from the spec: `kId` lives in the external kanjivg module
(not under src). Per spec §4.3 the VariantKey is the concatenation of
`code` and, when a variant tag is present, a separator plus that tag. -/
def Kanji.kId (k : Kanji) : String :=
  match k.variant with
  | none => k.code
  | some v => k.code ++ "-" ++ v

/-- The per-variant record `js_data` built at convert_data.py lines 31-39
and 163-169: `character` is the codepoint of `chr(int(code, 16))`, kept as
a natural number. -/
structure JsData where
  code : String
  character : Nat
  variant : Option String
  strokes : GroupRecord
  all_strokes : List StrokeRecord

/-- `chr(int(code, 16))`: `none` models the exception raised when the code
is not hexadecimal or falls outside the Unicode scalar range accepted by
`chr`. -/
def chrCode (s : String) : Option Nat :=
  match decodeHex s with
  | none => none
  | some n => if n ≤ 0x10FFFF then some n else none

/-- Build `js_data` from a kanji object; `none` when `chr(int(code, 16))`
raises (the surrounding try/except then skips the file). -/
def mkJsData (k : Kanji) : Option JsData :=
  match chrCode k.code with
  | none => none
  | some c =>
    some { code := k.code
         , character := c
         , variant := k.variant
         , strokes := convert_stroke_group k.strokes
         , all_strokes := flatten_all_strokes k.strokes }

/-- The outcome of opening and reading one SVG file, as observed by
`convert_svg_to_js_data` (lines 18-44) and the main loop (lines 160-185):
the file-info check fails, `read()` raises, `read()` returns a falsy
value, or a kanji object is produced. -/
inductive FileInput : Type where
  | badSfi : FileInput
  | readFail (msg : String) : FileInput
  | readNone : FileInput
  | ok (k : Kanji) : FileInput

/-- convert_data.py lines 18-44: convert a single file, returning `none`
when the file info is not OK, the read fails or yields nothing, or the
conversion body raises. -/
def convert_svg_to_js_data : FileInput → Option JsData
  | .badSfi => none
  | .readFail _ => none
  | .readNone => none
  | .ok k => mkJsData k

/-- Python dict assignment `m[k] = v`: an existing key keeps its position
and gets the new value; a new key is appended at the end. -/
def dictInsert {α : Type} (m : List (String × α)) (k : String) (v : α) :
    List (String × α) :=
  match m with
  | [] => [(k, v)]
  | (k', v') :: rest =>
    if k' = k then (k, v) :: rest else (k', v') :: dictInsert rest k v

/-- convert_data.py lines 179-182: append a variant key to the character
index, creating the character's entry on first sight. -/
def charIndexAdd (m : List (Nat × List String)) (c : Nat) (vk : String) :
    List (Nat × List String) :=
  match m with
  | [] => [(c, [vk])]
  | (c', ks) :: rest =>
    if c' = c then (c', ks ++ [vk]) :: rest else (c', ks) :: charIndexAdd rest c vk

/-- The mutable state accumulated by the main loop: `kanji_data`
(VariantKey → record), the character index, and the individual JSON files
written under the output directory (path → contents). -/
structure RunState where
  kanji_data : List (String × JsData)
  character_index : List (Nat × List String)
  writes : List (String × JsData)

/-- One iteration of the main loop (convert_data.py lines 160-185): a
failing or empty read, or a body that raises, leaves the state unchanged
(except/continue); a successful conversion stores the record under its
variant key, writes `individual/<key>.json`, and appends to the character
index. -/
def processOne (st : RunState) (r : FileInput) : RunState :=
  match r with
  | .badSfi => st
  | .readFail _ => st
  | .readNone => st
  | .ok k =>
    match mkJsData k with
    | none => st
    | some jd =>
      { kanji_data := dictInsert st.kanji_data k.kId jd
      , character_index := charIndexAdd st.character_index jd.character k.kId
      , writes := dictInsert st.writes ("individual/" ++ k.kId ++ ".json") jd }

/-- The whole main loop over the listed files, from the empty state. -/
def processFiles (fs : List FileInput) : RunState :=
  fs.foldl processOne ⟨[], [], []⟩

/-- convert_data.py lines 188-190: the lookup index maps every key of
`kanji_data` to `individual/<key>.json`. -/
def buildLookupIndex (ks : List String) : List (String × String) :=
  ks.map fun vk => (vk, "individual/" ++ vk ++ ".json")

/-- The lookup index produced by a run. -/
def runLookupIndex (fs : List FileInput) : List (String × String) :=
  buildLookupIndex ((processFiles fs).kanji_data.map Prod.fst)

mutual
theorem flatten_eq_preorder_map (g : GroupNode) :
    flatten_all_strokes g = (preorderLeaves g).map strokeToRecord := by
  match g with
  | .mk a cs =>
    rw [flatten_all_strokes, preorderLeaves, flattenChilds_eq_preorder_map cs]

theorem flattenChilds_eq_preorder_map (cs : List Child) :
    flattenChilds cs = (preorderLeavesChilds cs).map strokeToRecord := by
  match cs with
  | [] => rfl
  | .group g :: rest =>
    rw [flattenChilds, preorderLeavesChilds, List.map_append,
      flatten_eq_preorder_map g, flattenChilds_eq_preorder_map rest]
  | .stroke s :: rest =>
    rw [flattenChilds, preorderLeavesChilds, List.map_cons,
      flattenChilds_eq_preorder_map rest]
end

mutual
theorem flatten_length (g : GroupNode) :
    (flatten_all_strokes g).length = strokeLeafCount g := by
  match g with
  | .mk a cs => rw [flatten_all_strokes, strokeLeafCount, flattenChilds_length cs]

theorem flattenChilds_length (cs : List Child) :
    (flattenChilds cs).length = strokeLeafCountChilds cs := by
  match cs with
  | [] => rfl
  | .group g :: rest =>
    rw [flattenChilds, strokeLeafCountChilds, List.length_append,
      flatten_length g, flattenChilds_length rest]
  | .stroke s :: rest =>
    rw [flattenChilds, strokeLeafCountChilds, List.length_cons,
      flattenChilds_length rest, Nat.add_comm]
end

theorem convertChilds_fst (cs : List Child) :
    (convertChilds cs).1 = (directGroups cs).map convert_stroke_group := by
  induction cs with
  | nil => rfl
  | cons c rest ih =>
    cases c with
    | group g => simpa [convertChilds, directGroups, List.filterMap_cons] using ih
    | stroke s => simpa [convertChilds, directGroups, List.filterMap_cons] using ih

theorem convertChilds_snd (cs : List Child) :
    (convertChilds cs).2 = (directStrokes cs).map strokeToRecord := by
  induction cs with
  | nil => rfl
  | cons c rest ih =>
    cases c with
    | group g => simpa [convertChilds, directStrokes, List.filterMap_cons] using ih
    | stroke s => simpa [convertChilds, directStrokes, List.filterMap_cons] using ih

theorem convertChilds_snd_sublist (cs : List Child) :
    List.Sublist (convertChilds cs).2 (flattenChilds cs) := by
  induction cs with
  | nil => simp [convertChilds, flattenChilds]
  | cons c rest ih =>
    cases c with
    | group g =>
      rw [convertChilds, flattenChilds]
      exact ih.trans (List.sublist_append_right _ _)
    | stroke s =>
      rw [convertChilds, flattenChilds]
      exact List.Sublist.cons₂ _ ih

theorem truthyS_iff (o : Option String) :
    truthyS o = true ↔ ∃ s, o = some s ∧ s ≠ "" := by
  cases o with
  | none => simp [truthyS]
  | some s => simp [truthyS]

theorem dictInsert_overwrite {α : Type} (m : List (String × α)) (k : String)
    (v1 v2 : α) : dictInsert (dictInsert m k v1) k v2 = dictInsert m k v2 := by
  induction m with
  | nil => simp [dictInsert]
  | cons p rest ih =>
    obtain ⟨k', v'⟩ := p
    by_cases hk : k' = k
    · simp [dictInsert, hk]
    · simp [dictInsert, hk, ih]

theorem mem_ite_singl (c : Bool) (x y : String) :
    (x ∈ if c then [y] else ([] : List String)) ↔ (c = true ∧ x = y) := by
  cases c <;> simp

theorem key_id (a : GroupAttrs) : "id" ∈ groupRecordKeys a := by
  simp [groupRecordKeys]

theorem key_element (a : GroupAttrs) :
    "element" ∈ groupRecordKeys a ↔ truthyS a.element = true := by
  simp only [groupRecordKeys, List.mem_append, mem_ite_singl, List.mem_cons,
    List.not_mem_nil]
  simp

theorem key_original (a : GroupAttrs) :
    "original" ∈ groupRecordKeys a ↔ truthyS a.original = true := by
  simp only [groupRecordKeys, List.mem_append, mem_ite_singl, List.mem_cons,
    List.not_mem_nil]
  simp

theorem key_part (a : GroupAttrs) :
    "part" ∈ groupRecordKeys a ↔ a.part.isSome = true := by
  simp only [groupRecordKeys, List.mem_append, mem_ite_singl, List.mem_cons,
    List.not_mem_nil]
  simp

theorem key_number (a : GroupAttrs) :
    "number" ∈ groupRecordKeys a ↔ a.number.isSome = true := by
  simp only [groupRecordKeys, List.mem_append, mem_ite_singl, List.mem_cons,
    List.not_mem_nil]
  simp

theorem key_variant (a : GroupAttrs) :
    "variant" ∈ groupRecordKeys a ↔ truthyS a.variant = true := by
  simp only [groupRecordKeys, List.mem_append, mem_ite_singl, List.mem_cons,
    List.not_mem_nil]
  simp

theorem key_partialAttr (a : GroupAttrs) :
    "partial" ∈ groupRecordKeys a ↔ a.partialAttr = true := by
  simp only [groupRecordKeys, List.mem_append, mem_ite_singl, List.mem_cons,
    List.not_mem_nil]
  simp

theorem key_tradForm (a : GroupAttrs) :
    "tradForm" ∈ groupRecordKeys a ↔ a.tradForm = true := by
  simp only [groupRecordKeys, List.mem_append, mem_ite_singl, List.mem_cons,
    List.not_mem_nil]
  simp

theorem key_radicalForm (a : GroupAttrs) :
    "radicalForm" ∈ groupRecordKeys a ↔ a.radicalForm = true := by
  simp only [groupRecordKeys, List.mem_append, mem_ite_singl, List.mem_cons,
    List.not_mem_nil]
  simp

theorem key_position (a : GroupAttrs) :
    "position" ∈ groupRecordKeys a ↔ truthyS a.position = true := by
  simp only [groupRecordKeys, List.mem_append, mem_ite_singl, List.mem_cons,
    List.not_mem_nil]
  simp

theorem key_radical (a : GroupAttrs) :
    "radical" ∈ groupRecordKeys a ↔ truthyS a.radical = true := by
  simp only [groupRecordKeys, List.mem_append, mem_ite_singl, List.mem_cons,
    List.not_mem_nil]
  simp

theorem key_phon (a : GroupAttrs) :
    "phon" ∈ groupRecordKeys a ↔ truthyS a.phon = true := by
  simp only [groupRecordKeys, List.mem_append, mem_ite_singl, List.mem_cons,
    List.not_mem_nil]
  simp

theorem processOne_skip (st : RunState) (r : FileInput)
    (h : convert_svg_to_js_data r = none) : processOne st r = st := by
  cases r with
  | badSfi => rfl
  | readFail m => rfl
  | readNone => rfl
  | ok k =>
    rw [convert_svg_to_js_data] at h
    simp only [processOne, h]

/-- A group attribute set with every optional field absent. -/
def exEmptyAttrs : GroupAttrs :=
  ⟨none, none, none, none, none, none, false, false, false, none, none, none⟩

/-- A sample stroke with no path data. -/
def exStrokeA : StrokeNode := ⟨"a", none, none⟩

/-- A sample stroke with path data. -/
def exStrokeB : StrokeNode := ⟨"b", some "M2,2", some (3, 4)⟩

/-- A sample kanji object for code 4e8c. -/
def exKanji1 : Kanji := ⟨"04e8c", none, .mk exEmptyAttrs [.stroke exStrokeA]⟩

/-- A second, distinct sample kanji object deriving the same VariantKey. -/
def exKanji2 : Kanji := ⟨"04e8c", none, .mk exEmptyAttrs [.stroke exStrokeB]⟩

/-- The `js_data` record of `exKanji1`. -/
def exJs1 : JsData :=
  { code := "04e8c", character := 20108, variant := none
  , strokes := convert_stroke_group exKanji1.strokes
  , all_strokes := flatten_all_strokes exKanji1.strokes }

/-- The `js_data` record of `exKanji2`. -/
def exJs2 : JsData :=
  { code := "04e8c", character := 20108, variant := none
  , strokes := convert_stroke_group exKanji2.strokes
  , all_strokes := flatten_all_strokes exKanji2.strokes }

/-- C1: `flatten_all_strokes` emits the strokes of a group tree in
pre-order, left-to-right, depth-first order — it equals the record image
of the pre-order leaf traversal of the source tree, and on a root with one
sub-group (containing one stroke) followed by one direct stroke it yields
the sub-group's stroke first. -/
theorem C1_flatten_preorder :
    (∀ g : GroupNode, flatten_all_strokes g = (preorderLeaves g).map strokeToRecord)
    ∧ ∀ (a ga : GroupAttrs) (sub direct : StrokeNode),
        flatten_all_strokes (GroupNode.mk a
            [Child.group (GroupNode.mk ga [Child.stroke sub]), Child.stroke direct])
          = [strokeToRecord sub, strokeToRecord direct] := by
  refine ⟨flatten_eq_preorder_map, fun a ga sub direct => ?_⟩
  rw [flatten_all_strokes, flattenChilds, flatten_all_strokes, flattenChilds,
    flattenChilds, flattenChilds]
  rfl

/-- C2: the flattened stroke list of any group tree has exactly as many
entries as the tree has StrokeNode leaves — flattening never drops and
never duplicates a stroke. -/
theorem C2_flatten_length_eq_leaf_count (g : GroupNode) :
    (flatten_all_strokes g).length = strokeLeafCount g :=
  flatten_length g

/-- C6: the direct-strokes list of the converted record is a subsequence
of the flattened stroke list, and the converter preserves the relative
order of each kind of child: `strokes` is the record image of the stroke
children subsequence, `groups` the image of the group children
subsequence. -/
theorem C6_direct_strokes_sublist (g : GroupNode) :
    List.Sublist (convert_stroke_group g).strokes (flatten_all_strokes g)
    ∧ (convert_stroke_group g).strokes = (directStrokes g.childs).map strokeToRecord
    ∧ (convert_stroke_group g).groups = (directGroups g.childs).map convert_stroke_group := by
  cases g with
  | mk a cs =>
    refine ⟨?_, ?_, ?_⟩
    · show List.Sublist (convertChilds cs).2 (flattenChilds cs)
      exact convertChilds_snd_sublist cs
    · show (convertChilds cs).2 = (directStrokes cs).map strokeToRecord
      exact convertChilds_snd cs
    · show (convertChilds cs).1 = (directGroups cs).map convert_stroke_group
      exact convertChilds_fst cs

/-- C7: every stroke record produced by either converter comes from a
source stroke through `strokeToRecord`, so it always carries `type`,
`path` and `numberPos`, with `path` the empty string whenever the source
stroke's path is absent (or empty). -/
theorem C7_stroke_record_fields (g : GroupNode) (r : StrokeRecord)
    (h : r ∈ flatten_all_strokes g ∨ r ∈ (convert_stroke_group g).strokes) :
    ∃ s : StrokeNode, r = strokeToRecord s ∧ r.type = s.stype
      ∧ r.path = orEmpty s.svg ∧ r.numberPos = s.numberPos
      ∧ (s.svg = none → r.path = "") ∧ (s.svg = some "" → r.path = "") := by
  have hsrc : ∃ s : StrokeNode, r = strokeToRecord s := by
    cases g with
    | mk a cs =>
      rcases h with h | h
      · rw [flatten_all_strokes, flattenChilds_eq_preorder_map] at h
        rcases List.mem_map.1 h with ⟨s, _, hs⟩
        exact ⟨s, hs.symm⟩
      · have hstrokes : (convert_stroke_group (GroupNode.mk a cs)).strokes
            = (directStrokes cs).map strokeToRecord := convertChilds_snd cs
        rw [hstrokes] at h
        rcases List.mem_map.1 h with ⟨s, _, hs⟩
        exact ⟨s, hs.symm⟩
  rcases hsrc with ⟨s, hs⟩
  refine ⟨s, hs, ?_, ?_, ?_, ?_, ?_⟩ <;> subst hs
  · rfl
  · rfl
  · rfl
  · intro hnone; simp [strokeToRecord, orEmpty, hnone]
  · intro hempty; simp [strokeToRecord, orEmpty, hempty]

/-- Witness for C7 at a concrete tree: the record of the path-less stroke
`exStrokeA` occurs in the flattened output and has an empty `path`. -/
theorem C7_witness :
    ((⟨"a", "", none⟩ : StrokeRecord) ∈
        flatten_all_strokes (GroupNode.mk exEmptyAttrs [Child.stroke exStrokeA])
      ∨ (⟨"a", "", none⟩ : StrokeRecord) ∈
        (convert_stroke_group (GroupNode.mk exEmptyAttrs [Child.stroke exStrokeA])).strokes)
    ∧ ∃ s : StrokeNode, (⟨"a", "", none⟩ : StrokeRecord) = strokeToRecord s
      ∧ (⟨"a", "", none⟩ : StrokeRecord).type = s.stype
      ∧ (⟨"a", "", none⟩ : StrokeRecord).path = orEmpty s.svg
      ∧ (⟨"a", "", none⟩ : StrokeRecord).numberPos = s.numberPos
      ∧ (s.svg = none → (⟨"a", "", none⟩ : StrokeRecord).path = "")
      ∧ (s.svg = some "" → (⟨"a", "", none⟩ : StrokeRecord).path = "") :=
  ⟨Or.inl (by decide),
   C7_stroke_record_fields (GroupNode.mk exEmptyAttrs [Child.stroke exStrokeA])
     ⟨"a", "", none⟩ (Or.inl (by decide))⟩

/-- A group attribute set with every optional field set and non-empty,
with `part` and `number` zero. -/
def exFullAttrs : GroupAttrs :=
  ⟨some "g1", some "el", some "orig", some 0, some 0, some "v",
   true, true, true, some "top", some "general", some "ph"⟩

/-- A group attribute set whose string fields are empty strings and whose
numeric fields are zero. -/
def exZeroAttrs : GroupAttrs :=
  ⟨none, some "", none, some 0, some 0, none, false, false, false, none, none, none⟩

/-- C3 counterexample: on a group whose `ID` is absent, the converted
record still carries the `id` key, emitted with the default value `""` —
the claim that every absent optional field (id included) is omitted and
never emitted as a default is false. -/
theorem C3_counterexample :
    exEmptyAttrs.ID = none
    ∧ "id" ∈ groupRecordKeys exEmptyAttrs
    ∧ (convert_stroke_group (GroupNode.mk exEmptyAttrs [])).fields.id = "" := by
  refine ⟨rfl, by decide, rfl⟩

/-- C3 amended: `convert_stroke_group` copies each optional scalar field
except `id` (element, original, variant, position, radical, phon only when
present and non-empty; part and number when present, i.e. not None; the
flags when true) and omits it from the record otherwise, never emitting
null or a default; the `id` field alone is always emitted, defaulting to
the empty string when the source `ID` is absent or empty. -/
theorem C3_amended (a : GroupAttrs) (cs : List Child) :
    (convert_stroke_group (GroupNode.mk a cs)).fields = convertAttrs a
    ∧ ("id" ∈ groupRecordKeys a ∧ (convertAttrs a).id = orEmpty a.ID)
    ∧ (("element" ∈ groupRecordKeys a ↔ ∃ s, a.element = some s ∧ s ≠ "")
       ∧ ((convertAttrs a).element = none ↔ "element" ∉ groupRecordKeys a)
       ∧ ((convertAttrs a).element ≠ none → (convertAttrs a).element = a.element))
    ∧ (("original" ∈ groupRecordKeys a ↔ ∃ s, a.original = some s ∧ s ≠ "")
       ∧ ((convertAttrs a).original = none ↔ "original" ∉ groupRecordKeys a)
       ∧ ((convertAttrs a).original ≠ none → (convertAttrs a).original = a.original))
    ∧ (("part" ∈ groupRecordKeys a ↔ a.part ≠ none)
       ∧ (convertAttrs a).part = a.part)
    ∧ (("number" ∈ groupRecordKeys a ↔ a.number ≠ none)
       ∧ (convertAttrs a).number = a.number)
    ∧ (("variant" ∈ groupRecordKeys a ↔ ∃ s, a.variant = some s ∧ s ≠ "")
       ∧ ((convertAttrs a).variant = none ↔ "variant" ∉ groupRecordKeys a)
       ∧ ((convertAttrs a).variant ≠ none → (convertAttrs a).variant = a.variant))
    ∧ (("partial" ∈ groupRecordKeys a ↔ a.partialAttr = true)
       ∧ (convertAttrs a).partialAttr = a.partialAttr)
    ∧ (("tradForm" ∈ groupRecordKeys a ↔ a.tradForm = true)
       ∧ (convertAttrs a).tradForm = a.tradForm)
    ∧ (("radicalForm" ∈ groupRecordKeys a ↔ a.radicalForm = true)
       ∧ (convertAttrs a).radicalForm = a.radicalForm)
    ∧ (("position" ∈ groupRecordKeys a ↔ ∃ s, a.position = some s ∧ s ≠ "")
       ∧ ((convertAttrs a).position = none ↔ "position" ∉ groupRecordKeys a)
       ∧ ((convertAttrs a).position ≠ none → (convertAttrs a).position = a.position))
    ∧ (("radical" ∈ groupRecordKeys a ↔ ∃ s, a.radical = some s ∧ s ≠ "")
       ∧ ((convertAttrs a).radical = none ↔ "radical" ∉ groupRecordKeys a)
       ∧ ((convertAttrs a).radical ≠ none → (convertAttrs a).radical = a.radical))
    ∧ (("phon" ∈ groupRecordKeys a ↔ ∃ s, a.phon = some s ∧ s ≠ "")
       ∧ ((convertAttrs a).phon = none ↔ "phon" ∉ groupRecordKeys a)
       ∧ ((convertAttrs a).phon ≠ none → (convertAttrs a).phon = a.phon)) := by
  refine ⟨rfl, ⟨key_id a, rfl⟩, ?_, ?_, ?_, ?_, ?_, ?_, ?_, ?_, ?_, ?_, ?_⟩
  · rcases he : a.element with _ | s
    · simp [key_element, convertAttrs, truthyS, he]
    · by_cases hs : s = "" <;> simp [key_element, convertAttrs, truthyS, he, hs]
  · rcases he : a.original with _ | s
    · simp [key_original, convertAttrs, truthyS, he]
    · by_cases hs : s = "" <;> simp [key_original, convertAttrs, truthyS, he, hs]
  · rcases he : a.part with _ | n <;> simp [key_part, convertAttrs, he]
  · rcases he : a.number with _ | n <;> simp [key_number, convertAttrs, he]
  · rcases he : a.variant with _ | s
    · simp [key_variant, convertAttrs, truthyS, he]
    · by_cases hs : s = "" <;> simp [key_variant, convertAttrs, truthyS, he, hs]
  · exact ⟨key_partialAttr a, rfl⟩
  · exact ⟨key_tradForm a, rfl⟩
  · exact ⟨key_radicalForm a, rfl⟩
  · rcases he : a.position with _ | s
    · simp [key_position, convertAttrs, truthyS, he]
    · by_cases hs : s = "" <;> simp [key_position, convertAttrs, truthyS, he, hs]
  · rcases he : a.radical with _ | s
    · simp [key_radical, convertAttrs, truthyS, he]
    · by_cases hs : s = "" <;> simp [key_radical, convertAttrs, truthyS, he, hs]
  · rcases he : a.phon with _ | s
    · simp [key_phon, convertAttrs, truthyS, he]
    · by_cases hs : s = "" <;> simp [key_phon, convertAttrs, truthyS, he, hs]

/-- Witness for the amended C3 at a fully populated attribute set: the
present, non-empty element is copied through. -/
theorem C3_amended_witness :
    (convertAttrs exFullAttrs).element ≠ none
    ∧ (convertAttrs exFullAttrs).element = exFullAttrs.element := by
  obtain ⟨-, -, ⟨-, -, hval⟩, -⟩ := C3_amended exFullAttrs []
  exact ⟨by decide, hval (by decide)⟩

/-- C10: `part` and `number` are gated by `is not None`, so a zero value
is kept, while the optional string fields and flags are omitted whenever
falsy (absent, empty string, or false). -/
theorem C10_part_number_not_none (a : GroupAttrs) :
    (convertAttrs a).part = a.part
    ∧ (convertAttrs a).number = a.number
    ∧ ("part" ∈ groupRecordKeys a ↔ a.part ≠ none)
    ∧ ("number" ∈ groupRecordKeys a ↔ a.number ≠ none)
    ∧ (a.part = some 0 → "part" ∈ groupRecordKeys a ∧ (convertAttrs a).part = some 0)
    ∧ (a.number = some 0 → "number" ∈ groupRecordKeys a ∧ (convertAttrs a).number = some 0)
    ∧ (a.element = some "" → "element" ∉ groupRecordKeys a ∧ (convertAttrs a).element = none)
    ∧ (a.original = some "" → "original" ∉ groupRecordKeys a ∧ (convertAttrs a).original = none)
    ∧ (a.variant = some "" → "variant" ∉ groupRecordKeys a ∧ (convertAttrs a).variant = none)
    ∧ (a.position = some "" → "position" ∉ groupRecordKeys a ∧ (convertAttrs a).position = none)
    ∧ (a.radical = some "" → "radical" ∉ groupRecordKeys a ∧ (convertAttrs a).radical = none)
    ∧ (a.phon = some "" → "phon" ∉ groupRecordKeys a ∧ (convertAttrs a).phon = none)
    ∧ (a.partialAttr = false → "partial" ∉ groupRecordKeys a)
    ∧ (a.tradForm = false → "tradForm" ∉ groupRecordKeys a)
    ∧ (a.radicalForm = false → "radicalForm" ∉ groupRecordKeys a) := by
  refine ⟨?_, ?_, ?_, ?_, ?_, ?_, ?_, ?_, ?_, ?_, ?_, ?_, ?_, ?_, ?_⟩
  · rcases he : a.part with _ | n <;> simp [convertAttrs, he]
  · rcases he : a.number with _ | n <;> simp [convertAttrs, he]
  · rcases he : a.part with _ | n <;> simp [key_part, he]
  · rcases he : a.number with _ | n <;> simp [key_number, he]
  · intro he; simp [key_part, convertAttrs, he]
  · intro he; simp [key_number, convertAttrs, he]
  · intro he; simp [key_element, convertAttrs, truthyS, he]
  · intro he; simp [key_original, convertAttrs, truthyS, he]
  · intro he; simp [key_variant, convertAttrs, truthyS, he]
  · intro he; simp [key_position, convertAttrs, truthyS, he]
  · intro he; simp [key_radical, convertAttrs, truthyS, he]
  · intro he; simp [key_phon, convertAttrs, truthyS, he]
  · intro he; simp [key_partialAttr, he]
  · intro he; simp [key_tradForm, he]
  · intro he; simp [key_radicalForm, he]

/-- Witness for C10 at concrete attributes with `part = number = 0` and an
empty-string `element`: the zeros are kept, the empty string is dropped. -/
theorem C10_witness :
    ("part" ∈ groupRecordKeys exZeroAttrs ∧ (convertAttrs exZeroAttrs).part = some 0)
    ∧ ("number" ∈ groupRecordKeys exZeroAttrs ∧ (convertAttrs exZeroAttrs).number = some 0)
    ∧ ("element" ∉ groupRecordKeys exZeroAttrs ∧ (convertAttrs exZeroAttrs).element = none) := by
  obtain ⟨-, -, -, -, hp, hn, he, -⟩ := C10_part_number_not_none exZeroAttrs
  exact ⟨hp rfl, hn rfl, he rfl⟩

/-- C4 counterexample: two distinct diagrams deriving the same VariantKey
`04e8c` are both processed without any error; the run completes with a
single `kanji_data` entry holding the later record (the earlier one is
silently overwritten) and the key appended twice to the character
index. -/
theorem C4_counterexample :
    exKanji1.kId = exKanji2.kId
    ∧ (processFiles [.ok exKanji1, .ok exKanji2]).kanji_data.map Prod.fst = ["04e8c"]
    ∧ (processFiles [.ok exKanji1, .ok exKanji2]).kanji_data.map (fun p => p.2.all_strokes)
        = [[strokeToRecord exStrokeB]]
    ∧ (processFiles [.ok exKanji1, .ok exKanji2]).character_index
        = [(20108, ["04e8c", "04e8c"])] := by
  refine ⟨rfl, ?_, ?_, ?_⟩ <;> rfl

/-- C4 amended: a duplicate VariantKey is not detected and is not fatal:
the later record silently overwrites the earlier one under that key in
`kanji_data` (Python dict assignment), the key is appended a second time
to the character index, and processing continues normally. -/
theorem C4_amended (m : List (String × JsData)) (key : String) (d1 d2 : JsData)
    (st : RunState) (k1 k2 : Kanji) (j1 j2 : JsData) :
    dictInsert (dictInsert m key d1) key d2 = dictInsert m key d2
    ∧ (k1.kId = k2.kId → mkJsData k1 = some j1 → mkJsData k2 = some j2 →
        (processOne (processOne st (.ok k1)) (.ok k2)).kanji_data
          = dictInsert st.kanji_data k2.kId j2
        ∧ (processOne (processOne st (.ok k1)) (.ok k2)).character_index
          = charIndexAdd (charIndexAdd st.character_index j1.character k1.kId)
              j2.character k2.kId) := by
  refine ⟨dictInsert_overwrite m key d1 d2, fun hk h1 h2 => ⟨?_, ?_⟩⟩
  · simp only [processOne, h1, h2]
    rw [hk, dictInsert_overwrite]
  · simp only [processOne, h1, h2]

/-- Witness for the amended C4: processing the two concrete colliding
diagrams from the empty state leaves exactly the later record stored and
the key doubled in the character index. -/
theorem C4_amended_witness :
    (processOne (processOne ⟨[], [], []⟩ (.ok exKanji1)) (.ok exKanji2)).kanji_data
      = dictInsert ([] : List (String × JsData)) exKanji2.kId exJs2
    ∧ (processOne (processOne ⟨[], [], []⟩ (.ok exKanji1)) (.ok exKanji2)).character_index
      = charIndexAdd (charIndexAdd [] exJs1.character exKanji1.kId)
          exJs2.character exKanji2.kId := by
  obtain ⟨-, h⟩ := C4_amended [] "x" exJs1 exJs1 ⟨[], [], []⟩ exKanji1 exKanji2 exJs1 exJs2
  exact h rfl rfl rfl

/-- C5: on any string that decodes as a hexadecimal integer,
`get_unicode_range` returns the classification of that codepoint; the
classifier always answers one tag of the closed eight-tag set, each named
inclusive range maps to its own tag (so the ranges cannot overlap), and
every codepoint outside all named ranges maps to `other`. -/
theorem C5_unicode_classifier (code : String) (n : Nat)
    (h : decodeHex code = some n) :
    get_unicode_range code = some (classifyCodePoint n)
    ∧ classifyCodePoint n ∈ ["basic", "extended-a", "extended-b", "extended-c",
        "extended-d", "extended-e", "compatibility", "other"]
    ∧ (0x4E00 ≤ n ∧ n ≤ 0x9FFF → classifyCodePoint n = "basic")
    ∧ (0x3400 ≤ n ∧ n ≤ 0x4DBF → classifyCodePoint n = "extended-a")
    ∧ (0x20000 ≤ n ∧ n ≤ 0x2A6DF → classifyCodePoint n = "extended-b")
    ∧ (0x2A700 ≤ n ∧ n ≤ 0x2B73F → classifyCodePoint n = "extended-c")
    ∧ (0x2B740 ≤ n ∧ n ≤ 0x2B81F → classifyCodePoint n = "extended-d")
    ∧ (0x2B820 ≤ n ∧ n ≤ 0x2CEAF → classifyCodePoint n = "extended-e")
    ∧ (0xF900 ≤ n ∧ n ≤ 0xFAFF → classifyCodePoint n = "compatibility")
    ∧ (¬((0x4E00 ≤ n ∧ n ≤ 0x9FFF) ∨ (0x3400 ≤ n ∧ n ≤ 0x4DBF)
          ∨ (0x20000 ≤ n ∧ n ≤ 0x2A6DF) ∨ (0x2A700 ≤ n ∧ n ≤ 0x2B73F)
          ∨ (0x2B740 ≤ n ∧ n ≤ 0x2B81F) ∨ (0x2B820 ≤ n ∧ n ≤ 0x2CEAF)
          ∨ (0xF900 ≤ n ∧ n ≤ 0xFAFF))
        → classifyCodePoint n = "other") := by
  refine ⟨by simp [get_unicode_range, h], ?_, ?_, ?_, ?_, ?_, ?_, ?_, ?_, ?_⟩
  · unfold classifyCodePoint
    split_ifs <;> simp
  · rintro ⟨h1, h2⟩
    unfold classifyCodePoint
    split_ifs <;> first | rfl | omega
  · rintro ⟨h1, h2⟩
    unfold classifyCodePoint
    split_ifs <;> first | rfl | omega
  · rintro ⟨h1, h2⟩
    unfold classifyCodePoint
    split_ifs <;> first | rfl | omega
  · rintro ⟨h1, h2⟩
    unfold classifyCodePoint
    split_ifs <;> first | rfl | omega
  · rintro ⟨h1, h2⟩
    unfold classifyCodePoint
    split_ifs <;> first | rfl | omega
  · rintro ⟨h1, h2⟩
    unfold classifyCodePoint
    split_ifs <;> first | rfl | omega
  · rintro ⟨h1, h2⟩
    unfold classifyCodePoint
    split_ifs <;> first | rfl | omega
  · intro hno
    unfold classifyCodePoint
    split_ifs <;> first | rfl | omega

/-- Witness for C5 at the concrete code `4e00`: it decodes to 19968 and
classifies as `basic`. -/
theorem C5_witness :
    decodeHex "4e00" = some 19968
    ∧ get_unicode_range "4e00" = some (classifyCodePoint 19968)
    ∧ classifyCodePoint 19968 = "basic" := by
  obtain ⟨h1, -, hb, -⟩ := C5_unicode_classifier "4e00" 19968 (by decide)
  exact ⟨by decide, h1, hb ⟨by decide, by decide⟩⟩

/-- C8: a per-file failure is recoverable: the single-file converter
returns no record for a failed file-info check, a failed read, or an empty
read, and the main loop's state after processing a list containing any
file whose conversion yields no record equals the state after processing
the list without it — the failing file is excluded from every accumulated
artifact and the rest of the run is unaffected. -/
theorem C8_per_file_skip (r : FileInput) (pre post : List FileInput)
    (h : convert_svg_to_js_data r = none) :
    convert_svg_to_js_data FileInput.badSfi = none
    ∧ convert_svg_to_js_data FileInput.readNone = none
    ∧ (∀ msg, convert_svg_to_js_data (FileInput.readFail msg) = none)
    ∧ processFiles (pre ++ r :: post) = processFiles (pre ++ post) := by
  refine ⟨rfl, rfl, fun _ => rfl, ?_⟩
  unfold processFiles
  rw [List.foldl_append, List.foldl_append, List.foldl_cons, processOne_skip _ _ h]

/-- Witness for C8: a run over an unreadable file followed by a good file
equals the run over the good file alone. -/
theorem C8_witness :
    convert_svg_to_js_data FileInput.readNone = none
    ∧ processFiles [FileInput.readNone, FileInput.ok exKanji1]
      = processFiles [FileInput.ok exKanji1] := by
  obtain ⟨-, hn, -, hp⟩ := C8_per_file_skip FileInput.readNone [] [FileInput.ok exKanji1] rfl
  exact ⟨hn, hp⟩

/-- C9: every entry of the lookup index produced by a run maps its
VariantKey `k` to exactly the string `individual/<k>.json`. -/
theorem C9_lookup_index_paths (fs : List FileInput) (k v : String)
    (h : (k, v) ∈ runLookupIndex fs) :
    v = "individual/" ++ k ++ ".json" := by
  unfold runLookupIndex buildLookupIndex at h
  rcases List.mem_map.1 h with ⟨vk, -, heq⟩
  injection heq with h1 h2
  rw [← h1, ← h2]

/-- Witness for C9 at a one-file run: the key `04e8c` maps to
`individual/04e8c.json`. -/
theorem C9_witness :
    (("04e8c", "individual/04e8c.json") ∈ runLookupIndex [FileInput.ok exKanji1])
    ∧ "individual/04e8c.json" = "individual/" ++ "04e8c" ++ ".json" :=
  ⟨by decide,
   C9_lookup_index_paths [FileInput.ok exKanji1] "04e8c" "individual/04e8c.json"
     (by decide)⟩

end KanjiVG
